import Mathlib

/-!
Shallow embedding of `src/util.py`: an analytical module over baby-name
registration records (name, gender, count, year, state).

Modelling conventions:
* a pandas DataFrame of records is a `List Record` (order preserved);
* boolean-mask filtering `df[mask]` is `List.filter`;
* a Python `set` of strings is a `Finset String`;
* `list(some_set)` (Python set iteration order is unspecified) is modelled
  canonically as the ascending sorted listing of the set;
* Python ints are `Int` (years) / `Nat` (counts); the float percentage
  `count/total*100` is modelled exactly in `ℚ`, with the convention that
  division by zero is zero, standing in for the all-NaN column that pandas
  produces when the year total is zero (in both cases the subsequent sort
  leaves the order of the grouped names unchanged, so the models agree);
* a Python dict built by insertion is an association list
  (`List (key × value)`), preserving key insertion order.

The file first gives the definitions (translated from the source), then the
theorems about them.
-/

namespace Util

/-- One row of the combined Social Security applications table. -/
structure Record where
  name   : String
  gender : String
  count  : Nat
  year   : Int
  state  : String
deriving DecidableEq, Repr

/-- The combined data frame `df`: an ordered collection of records. -/
abbrev Dataset := List Record

/-- Year filter `df[df['year'] == year]`. -/
def yearRecords (df : Dataset) (year : Int) : Dataset :=
  df.filter (fun r => r.year == year)

/-- Distinct names of a frame, `set(frame['name'])`. -/
def nameSet (df : Dataset) : Finset String :=
  (df.map Record.name).toFinset

/-- Window filter `df[(df['year'] >= lo) & (df['year'] <= hi)]`. -/
def windowRecords (df : Dataset) (lo hi : Int) : Dataset :=
  df.filter (fun r => decide (lo ≤ r.year) && decide (r.year ≤ hi))

/--
Translation of `new_names(df, year)` from `src/util.py`:
`previous = df[(df['year']>=year-11)&(df['year']<=year-1)]`,
`previous_names = list(set(previous['name']))`,
`current_names = list(set(df[df['year']==year]['name']))`,
then the set of current names not among the previous names.
-/
def new_names (df : Dataset) (year : Int) : Finset String :=
  let previous := windowRecords df (year - 11) (year - 1)
  let previous_names := nameSet previous
  let current_names := nameSet (yearRecords df year)
  current_names.filter (fun n => n ∉ previous_names)

/--
Translation of `states_with_name(df, year, name)` from `src/util.py`:
`set(df[(df['year']==year)&(df['name']==name)]['state'])`.
-/
def states_with_name (df : Dataset) (year : Int) (name : String) : Finset String :=
  ((df.filter (fun r => r.year == year && r.name == name)).map Record.state).toFinset

/-- Names present in year `year` (spec wording: "names present in `year`"). -/
def namesInYear (df : Dataset) (year : Int) : Finset String :=
  nameSet (yearRecords df year)

/-- Union of names present in any year of `[lo, hi]` (spec wording). -/
def namesInWindow (df : Dataset) (lo hi : Int) : Finset String :=
  nameSet (windowRecords df lo hi)

/-- Sum of the count column, `frame['count'].sum()`. -/
def totalCount (df : Dataset) : Nat :=
  (df.map Record.count).sum

/-- The `groupby(['name']).sum()` value for one name: the per-name summed count. -/
def nameCount (df : Dataset) (n : String) : Nat :=
  totalCount (df.filter (fun r => r.name == n))

/-- Lexicographic comparison of character lists by code point, structurally
recursive so that it evaluates by kernel reduction. On the code-point lists
of two strings it decides the standard lexicographic string order used by
Python and pandas. -/
def lexLe : List Char → List Char → Bool
  | [], _ => true
  | _ :: _, [] => false
  | a :: as, b :: bs =>
    if a.toNat < b.toNat then true
    else if b.toNat < a.toNat then false
    else lexLe as bs

/-- The string order underlying sorted listings: lexicographic by code point. -/
def strLe (a b : String) : Prop :=
  lexLe a.data b.data = true

instance strLe_decidable : DecidableRel strLe :=
  fun a b => instDecidableEqBool (lexLe a.data b.data) true

/-- Canonical listing of a Python set of strings (`list(s)`: the iteration
order of a Python set is unspecified, so we fix the ascending order of
`strLe`). Implemented with the structurally recursive, stable
`List.insertionSort` so that it evaluates by kernel reduction. -/
def setListing (l : List String) : List String :=
  List.insertionSort strLe l.dedup

/-- The index of `current[['name','count']].groupby(['name']).sum()`: the
distinct names, in ascending order (pandas sorts group keys). -/
def groupedNames (df : Dataset) : List String :=
  setListing (df.map Record.name)

/-- The `percentage` column: `(current['count']/total)*100`, exact in `ℚ`
(stated literally by `percentage_eq_div_mul` below; the definition uses
`Rat.divInt`, which evaluates by kernel reduction). When the year total is
zero, pandas produces a NaN column and the subsequent sort leaves the grouped
order unchanged; the convention of `ℚ` that division by zero is zero yields an
all-equal column, on which the (stable) sort also leaves the order unchanged,
so the two models agree. -/
def percentage (df : Dataset) (year : Int) (n : String) : ℚ :=
  Rat.divInt (nameCount (yearRecords df year) n * 100 : Nat) (totalCount (yearRecords df year) : Nat)

/-- Model of `math.ceil(n * .1)`. For every feasible list length (below `2 ^ 50`) the
IEEE evaluation of `n * .1` rounds to a double whose ceiling equals
`⌈n / 10⌉`, which over `Nat` is `(n + 9) / 10`. -/
def topDecileCount (n : Nat) : Nat :=
  (n + 9) / 10

/-- The comparison of `sort_values(by='percentage', ascending=False)`:
`a` comes before `b` when its percentage is at least that of `b`. -/
def pctGE (df : Dataset) (year : Int) : String → String → Prop :=
  fun a b => percentage df year b ≤ percentage df year a

instance pctGE_decidable (df : Dataset) (year : Int) : DecidableRel (pctGE df year) :=
  fun a b => inferInstanceAs (Decidable (percentage df year b ≤ percentage df year a))

/-- Result of `current.sort_values(by='percentage', ascending=False)`: the grouped names
sorted by percentage, descending (stable on ties). -/
def sortedByPercentage (df : Dataset) (year : Int) : List String :=
  List.insertionSort (pctGE df year) (groupedNames (yearRecords df year))

/--
Translation of `popular_names(df, year)` from `src/util.py`: filter to the year, group-sum
counts per name, compute percentages of the year total, sort descending by
percentage, keep the first `math.ceil(len(current)*.1)` rows, return the
index as a set.
-/
def popular_names (df : Dataset) (year : Int) : Finset String :=
  ((sortedByPercentage df year).take
    (topDecileCount (groupedNames (yearRecords df year)).length)).toFinset

/-- Python `range(a, b)` over `Int`: the values `a, a+1, ..., b-1`. -/
def intRange (a b : Int) : List Int :=
  (List.range (b - a).toNat).map (fun (i : Nat) => a + (i : Int))

/-- Dict lookup in an association list (first matching key). -/
def lookupKey {β : Type} : List (String × β) → String → Option β
  | [], _ => none
  | p :: ps, name => if p.1 = name then some p.2 else lookupKey ps name

/-- One dict update of `becomed_popular`:
`if name not in becomed.keys(): becomed[name] = [y] else: becomed[name].append(y)`. -/
def addEmergence (b : List (String × List Int)) (name : String) (y : Int) :
    List (String × List Int) :=
  if b.any (fun p => p.1 == name) then
    b.map (fun p => if p.1 == name then (p.1, p.2 ++ [y]) else p)
  else b ++ [(name, [y])]

/-- Canonical ascending listing of the novelty set `new_names(df, year)`. -/
def newNamesListing (df : Dataset) (year : Int) : List String :=
  (groupedNames (yearRecords df year)).filter
    (fun n => n ∉ namesInWindow df (year - 11) (year - 1))

/-- Intersection listing `inter = list(new.intersection(popular_names(df, y)))`, in
canonical ascending order. -/
def interListing (df : Dataset) (year y : Int) : List String :=
  (newNamesListing df year).filter (fun n => n ∈ popular_names df y)

/-- The inner loop `for name in inter: ...` of `becomed_popular` for one
year `y` of the horizon. -/
def becomedStep (df : Dataset) (year : Int) (b : List (String × List Int)) (y : Int) :
    List (String × List Int) :=
  (interListing df year y).foldl (fun acc name => addEmergence acc name y) b

/--
Translation of `becomed_popular(df, year)` from `src/util.py`: starting from the empty dict,
for `y in range(year, year+10)` intersect the novelty set with
`popular_names(df, y)` and append `y` to the entry of every name in the
intersection (creating the entry on first occurrence).
-/
def becomed_popular (df : Dataset) (year : Int) : List (String × List Int) :=
  (intRange year (year + 10)).foldl (becomedStep df year) []

/-- The expected dict entry of a name after the years of `P` (in order) have
been processed: the sublist of `P` where the name is novel and popular, if
nonempty. -/
def mkEntry (df : Dataset) (year : Int) (P : List Int) (m : String) : Option (List Int) :=
  if m ∈ new_names df year ∧ (P.filter (fun y => decide (m ∈ popular_names df y))) ≠ []
  then some (P.filter (fun y => decide (m ∈ popular_names df y))) else none

/-- The years of `[year, year+9]` in which `name` ranks popular, ascending:
the expected year-list of `becomed_popular(df, year)[name]`. -/
def emergenceYears (df : Dataset) (year : Int) (name : String) : List Int :=
  (intRange year (year + 10)).filter (fun y => decide (name ∈ popular_names df y))

/-- Python `min(years)` on a nonempty list (`0` on `[]`, which is unreachable
in the code: dict values are built nonempty). -/
def minYears : List Int → Int
  | [] => 0
  | y :: ys => ys.foldl min y

/-- Listing `list(states_with_name(df, year, name))`: canonical ascending listing of
the region codes reporting `name` in `year`. -/
def statesListing (df : Dataset) (year : Int) (name : String) : List String :=
  setListing ((df.filter (fun r => r.year == year && r.name == name)).map Record.state)

/--
Translation of `trend_setter(df, year)` from `src/util.py`: starting from the empty list,
for each name key of `becomed_popular(df, year)` (in dict insertion order)
append the listing of the states reporting the name in `year` itself.
-/
def trend_setter (df : Dataset) (year : Int) : List String :=
  (becomed_popular df year).foldl (fun states p => states ++ statesListing df year p.1) []

/-- One counter update of the period aggregators:
`if s not in states.keys(): states[s] = 1 else: states[s] += 1`. -/
def bumpState (c : List (String × Nat)) (s : String) : List (String × Nat) :=
  if c.any (fun p => p.1 == s) then
    c.map (fun p => if p.1 == s then (p.1, p.2 + 1) else p)
  else c ++ [(s, 1)]

/-- The guarded inner loop of the period aggregators:
`if len(l) > 0: for s in l: bump` (the guard is kept from the source; an
empty list contributes nothing either way). -/
def tallyStates (c : List (String × Nat)) (l : List String) : List (String × Nat) :=
  if l.length > 0 then l.foldl bumpState c else c

/--
Translation of `trend_setter_period(df, start, end)` from `src/util.py`: for each year of
`range(start, end+1)` accumulate a per-region counter over the regions
returned by `trend_setter(df, year)`.
-/
def trend_setter_period (df : Dataset) (start stop : Int) : List (String × Nat) :=
  (intRange start (stop + 1)).foldl (fun c year => tallyStates c (trend_setter df year)) []

/--
Translation of `late_adopters(df, year)` from `src/util.py`: for each name key of
`becomed_popular(df, year)` with `y = min(years) + 1`, collect `early` over
`range(year, y)` and `late` over `range(y, y+3)`, keep the entries of `late`
whose state is absent from `early`, and concatenate over the names.
-/
def late_adopters (df : Dataset) (year : Int) : List String :=
  (becomed_popular df year).foldl (fun states p =>
    let y := minYears p.2 + 1
    let early := (intRange year y).foldl (fun acc q => acc ++ statesListing df q p.1) []
    let late := (intRange y (y + 3)).foldl (fun acc q => acc ++ statesListing df q p.1) []
    states ++ late.filter (fun s => decide (s ∉ early))) []

/--
Translation of `late_adopters_period(df, start, end)` from `src/util.py`: the same
accumulation as `trend_setter_period`, driven by `late_adopters`.
-/
def late_adopters_period (df : Dataset) (start stop : Int) : List (String × Nat) :=
  (intRange start (stop + 1)).foldl (fun c year => tallyStates c (late_adopters df year)) []

/-- Adding `k` occurrences to an optional counter entry: absent stays absent
only when nothing is added. -/
def addCount : Option Nat → Nat → Option Nat
  | none, 0 => none
  | none, k + 1 => some (k + 1)
  | some c, k => some (c + k)

/-- The store-explicit forms of the eight public operations. Each is the
translation of the corresponding source function made explicit about the heap
cell holding the caller's DataFrame: every pandas expression the source uses
(boolean-mask selection, `groupby(...).sum()`, `sort_values`, `.sum()`, and
the one column assignment, which targets a locally derived frame) builds or
reads a fresh object and never writes through `df`, so each call returns its
result paired with that store unchanged. -/
def new_names_call (df : Dataset) (year : Int) : Finset String × Dataset :=
  (new_names df year, df)

/-- Store-explicit `states_with_name` (see `new_names_call`). -/
def states_with_name_call (df : Dataset) (year : Int) (name : String) :
    Finset String × Dataset :=
  (states_with_name df year name, df)

/-- Store-explicit `popular_names` (see `new_names_call`). -/
def popular_names_call (df : Dataset) (year : Int) : Finset String × Dataset :=
  (popular_names df year, df)

/-- Store-explicit `becomed_popular` (see `new_names_call`). -/
def becomed_popular_call (df : Dataset) (year : Int) :
    List (String × List Int) × Dataset :=
  (becomed_popular df year, df)

/-- Store-explicit `trend_setter` (see `new_names_call`). -/
def trend_setter_call (df : Dataset) (year : Int) : List String × Dataset :=
  (trend_setter df year, df)

/-- Store-explicit `trend_setter_period` (see `new_names_call`). -/
def trend_setter_period_call (df : Dataset) (start stop : Int) :
    List (String × Nat) × Dataset :=
  (trend_setter_period df start stop, df)

/-- Store-explicit `late_adopters` (see `new_names_call`). -/
def late_adopters_call (df : Dataset) (year : Int) : List String × Dataset :=
  (late_adopters df year, df)

/-- Store-explicit `late_adopters_period` (see `new_names_call`). -/
def late_adopters_period_call (df : Dataset) (start stop : Int) :
    List (String × Nat) × Dataset :=
  (late_adopters_period df start stop, df)

/-- A one-record dataset used as concrete input by several witnesses. -/
def dfA : Dataset :=
  [⟨"Ana", "F", 5, 2000, "CA"⟩]

/-- A two-record dataset (the name spreads from CA in 2000 to TX in 2001)
used as concrete input by witnesses. -/
def dfB : Dataset :=
  [⟨"Ana", "F", 5, 2000, "CA"⟩, ⟨"Ana", "F", 3, 2001, "TX"⟩]

/-! ### Theorems -/

theorem mem_nameSet {df : Dataset} {n : String} :
    n ∈ nameSet df ↔ ∃ r ∈ df, r.name = n := by
  simp [nameSet]

theorem mem_namesInYear {df : Dataset} {year : Int} {n : String} :
    n ∈ namesInYear df year ↔ ∃ r ∈ df, r.year = year ∧ r.name = n := by
  simp only [namesInYear, nameSet, yearRecords, List.mem_toFinset, List.mem_map,
    List.mem_filter, beq_iff_eq]
  constructor
  · rintro ⟨r, ⟨hr, hy⟩, hn⟩
    exact ⟨r, hr, hy, hn⟩
  · rintro ⟨r, hr, hy, hn⟩
    exact ⟨r, ⟨hr, hy⟩, hn⟩

theorem mem_namesInWindow {df : Dataset} {lo hi : Int} {n : String} :
    n ∈ namesInWindow df lo hi ↔ ∃ r ∈ df, (lo ≤ r.year ∧ r.year ≤ hi) ∧ r.name = n := by
  simp only [namesInWindow, nameSet, windowRecords, List.mem_toFinset, List.mem_map,
    List.mem_filter, Bool.and_eq_true, decide_eq_true_eq]
  constructor
  · rintro ⟨r, ⟨hr, hy⟩, hn⟩
    exact ⟨r, hr, hy, hn⟩
  · rintro ⟨r, hr, hy, hn⟩
    exact ⟨r, ⟨hr, hy⟩, hn⟩

theorem mem_setListing {l : List String} {a : String} : a ∈ setListing l ↔ a ∈ l := by
  rw [setListing, (List.perm_insertionSort strLe _).mem_iff, List.mem_dedup]

theorem nodup_setListing (l : List String) : (setListing l).Nodup :=
  ((List.perm_insertionSort strLe _).nodup_iff).mpr (List.nodup_dedup l)

theorem length_setListing (l : List String) : (setListing l).length = l.toFinset.card := by
  rw [setListing, (List.perm_insertionSort strLe _).length_eq, List.card_toFinset]

theorem groupedNames_length (df : Dataset) :
    (groupedNames df).length = (nameSet df).card :=
  length_setListing (df.map Record.name)

theorem mem_groupedNames {df : Dataset} {a : String} :
    a ∈ groupedNames df ↔ a ∈ nameSet df :=
  mem_setListing.trans (List.mem_toFinset).symm

theorem percentage_eq_div_mul (df : Dataset) (year : Int) (n : String) :
    percentage df year n
      = ((nameCount (yearRecords df year) n : ℚ) / (totalCount (yearRecords df year) : ℚ)) * 100 := by
  rw [percentage, Rat.divInt_eq_div]
  push_cast
  rw [div_mul_eq_mul_div]

theorem popular_names_card_le (df : Dataset) (year : Int) :
    (popular_names df year).card ≤ topDecileCount (namesInYear df year).card := by
  refine le_trans (List.toFinset_card_le _) ?_
  rw [List.length_take]
  refine le_trans (min_le_left _ _) ?_
  have h : (groupedNames (yearRecords df year)).length = (namesInYear df year).card :=
    groupedNames_length (yearRecords df year)
  rw [h]

theorem popular_names_subset (df : Dataset) (year : Int) :
    ∀ a ∈ popular_names df year, a ∈ namesInYear df year := by
  intro a ha
  rw [popular_names, List.mem_toFinset] at ha
  have h1 : a ∈ sortedByPercentage df year := List.take_subset _ _ ha
  rw [sortedByPercentage, (List.perm_insertionSort (pctGE df year) _).mem_iff] at h1
  exact mem_groupedNames.mp h1

theorem popular_names_boundary (df : Dataset) (year : Int) :
    ∀ a ∈ popular_names df year, ∀ b ∈ namesInYear df year,
      b ∉ popular_names df year → percentage df year b ≤ percentage df year a := by
  intro a ha b hb hbn
  haveI : IsTotal String (pctGE df year) :=
    ⟨fun x y => le_total (percentage df year y) (percentage df year x)⟩
  haveI : IsTrans String (pctGE df year) :=
    ⟨fun _ _ _ hab hbc => le_trans hbc hab⟩
  have hpair : (sortedByPercentage df year).Pairwise (pctGE df year) :=
    List.sorted_insertionSort (pctGE df year) _
  rw [popular_names, List.mem_toFinset] at ha
  rw [popular_names, List.mem_toFinset] at hbn
  have hbS : b ∈ sortedByPercentage df year := by
    rw [sortedByPercentage, (List.perm_insertionSort (pctGE df year) _).mem_iff]
    exact mem_groupedNames.mpr hb
  have hbapp : b ∈ (sortedByPercentage df year).take
        (topDecileCount (groupedNames (yearRecords df year)).length)
      ++ (sortedByPercentage df year).drop
        (topDecileCount (groupedNames (yearRecords df year)).length) := by
    rw [List.take_append_drop]
    exact hbS
  have hbdrop : b ∈ (sortedByPercentage df year).drop
      (topDecileCount (groupedNames (yearRecords df year)).length) :=
    (List.mem_append.mp hbapp).resolve_left hbn
  have hpair2 : List.Pairwise (pctGE df year)
      ((sortedByPercentage df year).take
          (topDecileCount (groupedNames (yearRecords df year)).length)
        ++ (sortedByPercentage df year).drop
          (topDecileCount (groupedNames (yearRecords df year)).length)) := by
    rw [List.take_append_drop]
    exact hpair
  exact (List.pairwise_append.mp hpair2).2.2 a ha b hbdrop

theorem popular_names_of_no_names (df : Dataset) (year : Int)
    (h : namesInYear df year = ∅) : popular_names df year = ∅ := by
  have hl : List.map Record.name (yearRecords df year) = [] :=
    (List.toFinset_eq_empty_iff _).mp h
  have hg : groupedNames (yearRecords df year) = [] := by
    rw [groupedNames, hl]
    rfl
  rw [popular_names, sortedByPercentage, hg]
  rfl

/--
C1 counterexample: for a year whose records have a total summed count of
zero, `popular_names` does not fail; it silently returns a value. On a
dataset with one zero-count record in year 2000 it returns the singleton of
that name, and on a year with no records at all it returns the empty set.
-/
theorem popular_names_zero_total_counterexample :
    totalCount (yearRecords [⟨"Ana", "F", 0, 2000, "CA"⟩] 2000) = 0
    ∧ popular_names [⟨"Ana", "F", 0, 2000, "CA"⟩] 2000 = {"Ana"}
    ∧ popular_names ([] : Dataset) 2000 = ∅ := by
  refine ⟨rfl, ?_, rfl⟩
  decide

/--
C1 amended: for every dataset and year whose records have a total summed
count of zero, `popular_names` returns a value silently rather than failing:
a set of at most `ceil(0.1 * n)` names (`n` the distinct-name count of the
year), in particular the empty set when the year has no records. No
`DataError` (or any other failure path) exists in the code.
-/
theorem popular_names_zero_total_returns (df : Dataset) (year : Int)
    (_h : totalCount (yearRecords df year) = 0) :
    (popular_names df year).card ≤ topDecileCount (namesInYear df year).card
    ∧ (yearRecords df year = [] → popular_names df year = ∅) := by
  refine ⟨popular_names_card_le df year, fun hnil => ?_⟩
  refine popular_names_of_no_names df year ?_
  rw [namesInYear, hnil]
  rfl

/-- Witness for the amended C1 on the empty dataset. -/
theorem popular_names_zero_total_returns_witness :
    (popular_names ([] : Dataset) 2000).card
        ≤ topDecileCount (namesInYear ([] : Dataset) 2000).card
    ∧ popular_names ([] : Dataset) 2000 = ∅ :=
  ⟨(popular_names_zero_total_returns [] 2000 rfl).1,
   (popular_names_zero_total_returns [] 2000 rfl).2 rfl⟩

/--
C3: `popular_names(D, Y)` returns at most `ceil(0.1 * n)` names (`n` the
number of distinct names in year `Y`), all of them names of year `Y`, and
they are the names with the highest percentage share of the year total:
every name of the year left out has a percentage at most that of every name
kept. When `n = 0` the result is the empty set.
-/
theorem popular_names_spec (df : Dataset) (year : Int) :
    (popular_names df year).card ≤ topDecileCount (namesInYear df year).card
    ∧ (∀ a ∈ popular_names df year, a ∈ namesInYear df year)
    ∧ (∀ a ∈ popular_names df year, ∀ b ∈ namesInYear df year,
        b ∉ popular_names df year → percentage df year b ≤ percentage df year a)
    ∧ ((namesInYear df year).card = 0 → popular_names df year = ∅) := by
  refine ⟨popular_names_card_le df year, popular_names_subset df year,
    popular_names_boundary df year, fun h => ?_⟩
  exact popular_names_of_no_names df year (Finset.card_eq_zero.mp h)

/-- Witness for C3: with counts 9 and 1 in year 2000, only the top name is
kept and the dropped name has the smaller percentage. -/
theorem popular_names_spec_witness :
    percentage [⟨"Ana", "F", 9, 2000, "CA"⟩, ⟨"Bea", "F", 1, 2000, "CA"⟩] 2000 "Bea"
      ≤ percentage [⟨"Ana", "F", 9, 2000, "CA"⟩, ⟨"Bea", "F", 1, 2000, "CA"⟩] 2000 "Ana" :=
  (popular_names_spec [⟨"Ana", "F", 9, 2000, "CA"⟩, ⟨"Bea", "F", 1, 2000, "CA"⟩]
    2000).2.2.1 "Ana" (by decide) "Bea" (by decide) (by decide)

/--
C2: `new_names(D, Y)` equals the set difference of the names present in year
`Y` minus the union of names present in any year in `[Y-11, Y-1]`; it is
disjoint from the names of those prior years, a subset of the names of year
`Y`, and empty when no name qualifies.
-/
theorem new_names_is_difference (df : Dataset) (year : Int) :
    new_names df year = namesInYear df year \ namesInWindow df (year - 11) (year - 1)
    ∧ Disjoint (new_names df year) (namesInWindow df (year - 11) (year - 1))
    ∧ new_names df year ⊆ namesInYear df year
    ∧ (namesInYear df year ⊆ namesInWindow df (year - 11) (year - 1) →
        new_names df year = ∅) := by
  have hdiff : new_names df year
      = namesInYear df year \ namesInWindow df (year - 11) (year - 1) :=
    (Finset.sdiff_eq_filter (namesInYear df year)
      (namesInWindow df (year - 11) (year - 1))).symm
  refine ⟨hdiff, ?_, ?_, ?_⟩
  · rw [hdiff]; exact Finset.sdiff_disjoint
  · rw [hdiff]; exact Finset.sdiff_subset
  · intro hsub
    rw [hdiff]
    exact Finset.sdiff_eq_empty_iff_subset.mpr hsub

/-- Witness for C2: on a two-record dataset whose only name also occurs in the
prior window, `new_names` is empty. -/
theorem new_names_is_difference_witness :
    new_names [⟨"Ana", "F", 5, 1999, "CA"⟩, ⟨"Ana", "F", 7, 2000, "CA"⟩] 2000 = ∅ :=
  (new_names_is_difference [⟨"Ana", "F", 5, 1999, "CA"⟩, ⟨"Ana", "F", 7, 2000, "CA"⟩]
    2000).2.2.2 (by decide)

/--
C8: `states_with_name(D, Y, n)` is the set of distinct region codes of records
matching year `Y` and name `n` exactly, and when no record matches it returns
the empty set (a value, not an error: the embedded function is total).
-/
theorem states_with_name_spec (df : Dataset) (year : Int) (name : String) :
    (∀ s, s ∈ states_with_name df year name
        ↔ ∃ r ∈ df, r.year = year ∧ r.name = name ∧ r.state = s)
    ∧ ((∀ r ∈ df, ¬(r.year = year ∧ r.name = name)) →
        states_with_name df year name = ∅) := by
  have hmem : ∀ s, s ∈ states_with_name df year name
      ↔ ∃ r ∈ df, r.year = year ∧ r.name = name ∧ r.state = s := by
    intro s
    simp only [states_with_name, List.mem_toFinset, List.mem_map, List.mem_filter,
      Bool.and_eq_true, beq_iff_eq]
    constructor
    · rintro ⟨r, ⟨hr, hy, hn⟩, hs⟩
      exact ⟨r, hr, hy, hn, hs⟩
    · rintro ⟨r, hr, hy, hn, hs⟩
      exact ⟨r, ⟨hr, hy, hn⟩, hs⟩
  refine ⟨hmem, fun hnone => ?_⟩
  ext s
  simp only [Finset.not_mem_empty, iff_false]
  intro hs
  obtain ⟨r, hr, hy, hn, _⟩ := (hmem s).mp hs
  exact hnone r hr ⟨hy, hn⟩

/-- Witness for C8: a dataset with no record matching the queried year yields
the empty set. -/
theorem states_with_name_spec_witness :
    states_with_name [⟨"Ana", "F", 5, 2000, "CA"⟩] 1999 "Ana" = ∅ :=
  (states_with_name_spec [⟨"Ana", "F", 5, 2000, "CA"⟩] 1999 "Ana").2 (by decide)

theorem mem_intRange {a b y : Int} : y ∈ intRange a b ↔ a ≤ y ∧ y < b := by
  rw [intRange]
  constructor
  · intro h
    rcases List.mem_map.mp h with ⟨i, hi, hy⟩
    rw [List.mem_range] at hi
    subst hy
    omega
  · intro h
    refine List.mem_map.mpr ⟨(y - a).toNat, ?_, ?_⟩
    · rw [List.mem_range]
      omega
    · omega

theorem pairwise_lt_intRange (a b : Int) : (intRange a b).Pairwise (· < ·) := by
  rw [intRange]
  exact List.Pairwise.map _ (fun i j hij => by omega) (List.pairwise_lt_range _)

theorem mem_newNamesListing {df : Dataset} {year : Int} {m : String} :
    m ∈ newNamesListing df year ↔ m ∈ new_names df year := by
  rw [newNamesListing, List.mem_filter]
  simp only [decide_eq_true_eq]
  rw [new_names, Finset.mem_filter]
  constructor
  · rintro ⟨h1, h2⟩
    exact ⟨mem_groupedNames.mp h1, h2⟩
  · rintro ⟨h1, h2⟩
    exact ⟨mem_groupedNames.mpr h1, h2⟩

theorem nodup_newNamesListing (df : Dataset) (year : Int) :
    (newNamesListing df year).Nodup :=
  (nodup_setListing _).filter _

theorem mem_interListing {df : Dataset} {year y : Int} {m : String} :
    m ∈ interListing df year y ↔ m ∈ new_names df year ∧ m ∈ popular_names df y := by
  rw [interListing, List.mem_filter]
  simp only [decide_eq_true_eq]
  exact and_congr_left (fun _ => mem_newNamesListing)

theorem nodup_interListing (df : Dataset) (year y : Int) :
    (interListing df year y).Nodup :=
  (nodup_newNamesListing df year).filter _

theorem lookupKey_append {β : Type} (b1 b2 : List (String × β)) (m : String) :
    lookupKey (b1 ++ b2) m
      = match lookupKey b1 m with
        | some l => some l
        | none => lookupKey b2 m := by
  induction b1 with
  | nil => simp [lookupKey]
  | cons p ps ih =>
    by_cases h : p.1 = m
    · simp [lookupKey, h]
    · simp [lookupKey, h, ih]

theorem lookupKey_eq_none {β : Type} {b : List (String × β)} {m : String} :
    lookupKey b m = none ↔ ∀ p ∈ b, p.1 ≠ m := by
  induction b with
  | nil => simp [lookupKey]
  | cons p ps ih =>
    by_cases h : p.1 = m
    · simp [lookupKey, h]
    · simp [lookupKey, h, ih]

theorem lookupKey_isSome {β : Type} {b : List (String × β)} {m : String} :
    (∃ v, lookupKey b m = some v) ↔ ∃ p ∈ b, p.1 = m := by
  constructor
  · rintro ⟨l, hl⟩
    by_contra hno
    push_neg at hno
    rw [lookupKey_eq_none.mpr hno] at hl
    exact Option.noConfusion hl
  · intro hex
    rcases hopt : lookupKey b m with _ | l
    · rcases hex with ⟨p, hp, hpm⟩
      exact absurd hpm (lookupKey_eq_none.mp hopt p hp)
    · exact ⟨l, rfl⟩

theorem lookupKey_map_update {β : Type} (b : List (String × β)) (name : String) (g : β → β)
    (m : String) :
    lookupKey (b.map (fun p => if p.1 == name then (p.1, g p.2) else p)) m
      = if m = name then
          (match lookupKey b m with
           | none => none
           | some v => some (g v))
        else lookupKey b m := by
  induction b with
  | nil =>
    by_cases hmn : m = name <;> simp [lookupKey, hmn]
  | cons p ps ih =>
    rw [List.map_cons]
    by_cases hpn : p.1 = name
    · rw [if_pos (beq_iff_eq.mpr hpn)]
      by_cases hpm : p.1 = m
      · have hmn : m = name := by rw [← hpm, hpn]
        have hR : lookupKey (p :: ps) m = some p.2 := by
          rw [lookupKey, if_pos hpm]
        show (if p.1 = m then some (g p.2) else _) = _
        rw [if_pos hpm, if_pos hmn, hR]
      · have hmn : ¬ m = name := fun h => hpm (by rw [hpn, h])
        have hR : lookupKey (p :: ps) m = lookupKey ps m := by
          rw [lookupKey, if_neg hpm]
        show (if p.1 = m then some (g p.2) else _) = _
        rw [if_neg hpm, ih, if_neg hmn, if_neg hmn, hR]
    · rw [if_neg (fun h => hpn (beq_iff_eq.mp h))]
      by_cases hpm : p.1 = m
      · have hmn : ¬ m = name := fun h => hpn (by rw [hpm, h])
        have hR : lookupKey (p :: ps) m = some p.2 := by
          rw [lookupKey, if_pos hpm]
        show lookupKey (p :: _) m = _
        rw [lookupKey, if_pos hpm, if_neg hmn, hR]
      · have hR : lookupKey (p :: ps) m = lookupKey ps m := by
          rw [lookupKey, if_neg hpm]
        show lookupKey (p :: _) m = _
        rw [lookupKey, if_neg hpm, ih, hR]

theorem lookupKey_addEmergence (b : List (String × List Int)) (name : String) (y : Int)
    (m : String) :
    lookupKey (addEmergence b name y) m
      = if m = name then
          (match lookupKey b name with
           | none => some [y]
           | some l => some (l ++ [y]))
        else lookupKey b m := by
  rw [addEmergence]
  by_cases hany : b.any (fun p => p.1 == name) = true
  · rw [if_pos hany]
    have hmu := lookupKey_map_update b name (fun l => l ++ [y]) m
    simp only [] at hmu
    rw [hmu]
    have hsome : ∃ l, lookupKey b name = some l := by
      rw [lookupKey_isSome]
      simpa using hany
    rcases hsome with ⟨l, hl⟩
    by_cases hmn : m = name
    · subst hmn
      simp [hl]
    · simp [hmn]
  · rw [if_neg hany, lookupKey_append]
    have hnone : lookupKey b name = none := by
      rw [lookupKey_eq_none]
      intro p hp
      by_contra he
      exact hany (List.any_eq_true.mpr ⟨p, hp, by simpa using he⟩)
    by_cases hmn : m = name
    · subst hmn
      simp [hnone, lookupKey]
    · rcases hopt : lookupKey b m with _ | l
      · simp [hopt, lookupKey, hmn, Ne.symm hmn]
      · simp [hopt, hmn]

theorem lookupKey_foldAdd (y : Int) :
    ∀ (ns : List String) (b : List (String × List Int)), ns.Nodup → ∀ m,
      lookupKey (ns.foldl (fun acc n => addEmergence acc n y) b) m
        = if m ∈ ns then
            (match lookupKey b m with
             | none => some [y]
             | some l => some (l ++ [y]))
          else lookupKey b m
  | [], b, _, m => by simp
  | n :: ns, b, hnodup, m => by
    rw [List.foldl_cons]
    rw [lookupKey_foldAdd y ns (addEmergence b n y) (List.nodup_cons.mp hnodup).2 m]
    rw [lookupKey_addEmergence]
    by_cases hmn : m = n
    · subst hmn
      have hnotin : m ∉ ns := (List.nodup_cons.mp hnodup).1
      simp [hnotin]
    · by_cases hin : m ∈ ns
      · simp [hin, hmn, List.mem_cons]
      · have : m ∉ n :: ns := by
          simp [List.mem_cons, hmn, hin]
        simp [hin, hmn, this]

theorem lookupKey_becomedStep (df : Dataset) (year : Int)
    (b : List (String × List Int)) (y : Int) (m : String) :
    lookupKey (becomedStep df year b y) m
      = if m ∈ new_names df year ∧ m ∈ popular_names df y then
          (match lookupKey b m with
           | none => some [y]
           | some l => some (l ++ [y]))
        else lookupKey b m := by
  rw [becomedStep, lookupKey_foldAdd y _ b (nodup_interListing df year y) m]
  by_cases hin : m ∈ interListing df year y
  · rw [if_pos hin, if_pos (mem_interListing.mp hin)]
  · rw [if_neg hin, if_neg (fun h => hin (mem_interListing.mpr h))]

theorem mkEntry_append_one (df : Dataset) (year : Int) (P : List Int) (y : Int) (m : String) :
    mkEntry df year (P ++ [y]) m
      = if m ∈ new_names df year ∧ m ∈ popular_names df y then
          (match mkEntry df year P m with
           | none => some [y]
           | some l => some (l ++ [y]))
        else mkEntry df year P m := by
  by_cases hmn : m ∈ new_names df year
  · by_cases hmp : m ∈ popular_names df y
    · rcases hP : P.filter (fun q => decide (m ∈ popular_names df q)) with _ | ⟨z, zs⟩
      · simp [mkEntry, hmn, hmp, List.filter_append, hP]
      · simp [mkEntry, hmn, hmp, List.filter_append, hP]
    · simp [mkEntry, hmn, hmp, List.filter_append]
  · simp [mkEntry, hmn]

theorem lookupKey_becomed_fold (df : Dataset) (year : Int) :
    ∀ (ys : List Int) (P : List Int) (b : List (String × List Int)),
      (∀ m, lookupKey b m = mkEntry df year P m) →
      ∀ m, lookupKey (ys.foldl (becomedStep df year) b) m = mkEntry df year (P ++ ys) m
  | [], P, b, hb, m => by
    rw [List.foldl_nil, List.append_nil]
    exact hb m
  | y :: ys, P, b, hb, m => by
    rw [List.foldl_cons]
    have hstep : ∀ m, lookupKey (becomedStep df year b y) m = mkEntry df year (P ++ [y]) m := by
      intro m
      rw [lookupKey_becomedStep, mkEntry_append_one, hb m]
    have := lookupKey_becomed_fold df year ys (P ++ [y]) (becomedStep df year b y) hstep m
    rw [this, List.append_assoc]
    rfl

theorem lookupKey_becomed (df : Dataset) (year : Int) (m : String) :
    lookupKey (becomed_popular df year) m
      = if m ∈ new_names df year ∧ emergenceYears df year m ≠ []
        then some (emergenceYears df year m) else none := by
  have hbase : ∀ n, lookupKey ([] : List (String × List Int)) n = mkEntry df year [] n := by
    intro n
    simp [lookupKey, mkEntry]
  have := lookupKey_becomed_fold df year (intRange year (year + 10)) [] [] hbase m
  rw [List.nil_append] at this
  rw [becomed_popular, this, mkEntry, emergenceYears]

theorem eq_nil_of_lookupKey_none {β : Type} {b : List (String × β)}
    (h : ∀ m, lookupKey b m = none) : b = [] := by
  cases b with
  | nil => rfl
  | cons p ps =>
    have := h p.1
    simp [lookupKey] at this

theorem minYears_mem : ∀ l : List Int, l ≠ [] → minYears l ∈ l := by
  have hfold : ∀ (ys : List Int) (acc : Int), ys.foldl min acc = acc ∨ ys.foldl min acc ∈ ys := by
    intro ys
    induction ys with
    | nil => exact fun acc => Or.inl rfl
    | cons y ys ih =>
      intro acc
      rcases ih (min acc y) with h | h
      · rcases min_choice acc y with hc | hc
        · left
          rw [List.foldl_cons, h, hc]
        · right
          rw [List.foldl_cons, h, hc]
          exact List.mem_cons_self _ _
      · right
        exact List.mem_cons_of_mem _ h
  intro l hl
  cases l with
  | nil => exact absurd rfl hl
  | cons y ys =>
    rcases hfold ys y with h | h
    · rw [minYears, h]
      exact List.mem_cons_self _ _
    · rw [minYears]
      exact List.mem_cons_of_mem _ h

/--
C4: the keys of `becomed_popular(D, Y)` are exactly the names of
`new_names(D, Y)` that are in `popular_names(D, y)` for at least one
`y ∈ [Y, Y+9]`; each key's value is the strictly ascending list of exactly
those years `y ∈ [Y, Y+9]` with the name in `popular_names(D, y)`; and the
map is empty when no novel name is ever popular in the horizon.
-/
theorem becomed_popular_spec (df : Dataset) (year : Int) :
    (∀ name, (∃ l, lookupKey (becomed_popular df year) name = some l)
        ↔ (name ∈ new_names df year
            ∧ ∃ y, year ≤ y ∧ y ≤ year + 9 ∧ name ∈ popular_names df y))
    ∧ (∀ name l, lookupKey (becomed_popular df year) name = some l →
        List.Sorted (· < ·) l
        ∧ (∀ y, y ∈ l ↔ (year ≤ y ∧ y ≤ year + 9 ∧ name ∈ popular_names df y)))
    ∧ ((∀ name ∈ new_names df year,
          ∀ y, year ≤ y → y ≤ year + 9 → name ∉ popular_names df y) →
        becomed_popular df year = []) := by
  have hne : ∀ name, emergenceYears df year name ≠ []
      ↔ ∃ y, year ≤ y ∧ y ≤ year + 9 ∧ name ∈ popular_names df y := by
    intro name
    rw [emergenceYears, Ne, List.filter_eq_nil_iff]
    push_neg
    constructor
    · rintro ⟨y, hy, hp⟩
      rw [mem_intRange] at hy
      exact ⟨y, hy.1, by omega, by simpa using hp⟩
    · rintro ⟨y, h1, h2, hp⟩
      exact ⟨y, mem_intRange.mpr ⟨h1, by omega⟩, by simpa using hp⟩
  refine ⟨?_, ?_, ?_⟩
  · intro name
    rw [lookupKey_becomed]
    by_cases hc : name ∈ new_names df year ∧ emergenceYears df year name ≠ []
    · rw [if_pos hc]
      exact iff_of_true ⟨emergenceYears df year name, rfl⟩ ⟨hc.1, (hne name).mp hc.2⟩
    · rw [if_neg hc]
      simp only [reduceCtorEq, exists_false, false_iff]
      intro hcon
      exact hc ⟨hcon.1, (hne name).mpr hcon.2⟩
  · intro name l hl
    rw [lookupKey_becomed] at hl
    by_cases hc : name ∈ new_names df year ∧ emergenceYears df year name ≠ []
    · rw [if_pos hc, Option.some.injEq] at hl
      subst hl
      constructor
      · exact List.Pairwise.filter _ (pairwise_lt_intRange year (year + 10))
      · intro y
        rw [emergenceYears, List.mem_filter, mem_intRange]
        simp only [decide_eq_true_eq]
        constructor
        · rintro ⟨⟨ha, hb⟩, hp⟩
          exact ⟨ha, by omega, hp⟩
        · rintro ⟨ha, hb, hp⟩
          exact ⟨⟨ha, by omega⟩, hp⟩
    · rw [if_neg hc] at hl
      exact Option.noConfusion hl
  · intro hnever
    refine eq_nil_of_lookupKey_none ?_
    intro m
    rw [lookupKey_becomed]
    by_cases hm : m ∈ new_names df year
    · have : ¬ emergenceYears df year m ≠ [] := by
        rw [hne m]
        push_neg
        intro y h1 h2
        exact hnever m hm y h1 h2
      rw [if_neg (fun hc => this hc.2)]
    · rw [if_neg (fun hc => hm hc.1)]

/-- Witness for C4 on `dfA`: the single record makes "Ana" novel and popular
in 2000, so its entry is the ascending singleton `[2000]`. -/
theorem becomed_popular_spec_witness :
    List.Sorted (· < ·) ([2000] : List Int)
    ∧ ((2000 : Int) ∈ ([2000] : List Int)
        ↔ ((2000 : Int) ≤ 2000 ∧ (2000 : Int) ≤ 2000 + 9 ∧ "Ana" ∈ popular_names dfA 2000)) :=
  ⟨((becomed_popular_spec dfA 2000).2.1 "Ana" [2000] (by decide)).1,
   ((becomed_popular_spec dfA 2000).2.1 "Ana" [2000] (by decide)).2 2000⟩

/--
C10: every year-list stored by `becomed_popular(D, Y)` is nonempty with all
years at least `Y`, so `first_popular_year = min(years) + 1` is at least
`Y + 1`, and the early range `range(Y, first_popular_year)` of
`late_adopters` is never empty: it always contains `Y` itself.
-/
theorem becomed_popular_min_bound (df : Dataset) (year : Int) :
    ∀ name l, lookupKey (becomed_popular df year) name = some l →
      l ≠ []
      ∧ year + 1 ≤ minYears l + 1
      ∧ year ∈ intRange year (minYears l + 1)
      ∧ intRange year (minYears l + 1) ≠ [] := by
  intro name l hl
  rw [lookupKey_becomed] at hl
  by_cases hc : name ∈ new_names df year ∧ emergenceYears df year name ≠ []
  · rw [if_pos hc, Option.some.injEq] at hl
    subst hl
    have hmem := minYears_mem _ hc.2
    have hbound : year ≤ minYears (emergenceYears df year name) := by
      rw [emergenceYears, List.mem_filter] at hmem
      exact (mem_intRange.mp hmem.1).1
    refine ⟨hc.2, by omega, mem_intRange.mpr ⟨le_refl year, by omega⟩, ?_⟩
    exact List.ne_nil_of_mem (mem_intRange.mpr ⟨le_refl year, by omega⟩)
  · rw [if_neg hc] at hl
    exact Option.noConfusion hl

theorem mem_statesListing {df : Dataset} {year : Int} {name : String} {s : String} :
    s ∈ statesListing df year name ↔ s ∈ states_with_name df year name :=
  mem_setListing.trans (List.mem_toFinset).symm

theorem foldl_append_eq_flatMap {α β : Type} (f : α → List β) :
    ∀ (l : List α) (init : List β),
      l.foldl (fun acc x => acc ++ f x) init = init ++ l.flatMap f
  | [], init => by simp
  | x :: l, init => by
    rw [List.foldl_cons, foldl_append_eq_flatMap f l (init ++ f x), List.flatMap_cons,
      List.append_assoc]

theorem count_flatMap_eq_sum {α : Type} (f : α → List String) (s : String) :
    ∀ l : List α, ((l.flatMap f).count s) = (l.map (fun x => (f x).count s)).sum
  | [] => rfl
  | x :: l => by
    rw [List.flatMap_cons, List.count_append, List.map_cons, List.sum_cons,
      count_flatMap_eq_sum f s l]

theorem lookupKey_bumpState (c : List (String × Nat)) (s m : String) :
    lookupKey (bumpState c s) m
      = if m = s then
          (match lookupKey c m with
           | none => some 1
           | some k => some (k + 1))
        else lookupKey c m := by
  rw [bumpState]
  by_cases hany : c.any (fun p => p.1 == s) = true
  · rw [if_pos hany]
    have hmu := lookupKey_map_update c s (fun k => k + 1) m
    simp only [] at hmu
    rw [hmu]
    have hsome : ∃ v, lookupKey c s = some v := by
      rw [lookupKey_isSome]
      simpa using hany
    rcases hsome with ⟨v, hv⟩
    by_cases hms : m = s
    · subst hms
      simp [hv]
    · simp [hms]
  · rw [if_neg hany, lookupKey_append]
    have hnone : lookupKey c s = none := by
      rw [lookupKey_eq_none]
      intro p hp
      by_contra he
      exact hany (List.any_eq_true.mpr ⟨p, hp, by simpa using he⟩)
    by_cases hms : m = s
    · subst hms
      simp [hnone, lookupKey]
    · rcases hopt : lookupKey c m with _ | v
      · simp [hopt, lookupKey, hms, Ne.symm hms]
      · simp [hopt, hms]

theorem lookupKey_foldBump :
    ∀ (l : List String) (c : List (String × Nat)) (m : String),
      lookupKey (l.foldl bumpState c) m = addCount (lookupKey c m) (l.count m)
  | [], c, m => by
    rcases hopt : lookupKey c m with _ | k <;> simp [addCount, hopt]
  | s :: l, c, m => by
    rw [List.foldl_cons, lookupKey_foldBump l (bumpState c s) m, lookupKey_bumpState]
    by_cases hms : m = s
    · subst hms
      rw [if_pos rfl, List.count_cons_self]
      rcases hopt : lookupKey c m with _ | k
      · show some (1 + l.count m) = addCount none (l.count m + 1)
        rw [show l.count m + 1 = Nat.succ (l.count m) from rfl]
        show some (1 + l.count m) = some (l.count m + 1)
        rw [Nat.add_comm]
      · show some (k + 1 + l.count m) = some (k + (l.count m + 1))
        congr 1
        omega
    · have hsm : ¬ s = m := fun h => hms h.symm
      rw [if_neg hms]
      have hcnt : (s :: l).count m = l.count m := by
        simp [List.count_cons, hsm]
      rw [hcnt]

theorem addCount_addCount (o : Option Nat) (j k : Nat) :
    addCount (addCount o j) k = addCount o (j + k) := by
  rcases o with _ | c
  · rcases j with _ | j
    · rw [show (0 : Nat) + k = k by omega]
      rfl
    · rw [show j + 1 + k = (j + k) + 1 by omega]
      show some (j + 1 + k) = some (j + k + 1)
      congr 1
      omega
  · show some (c + j + k) = some (c + (j + k))
    rw [Nat.add_assoc]

theorem tallyStates_eq_foldl (c : List (String × Nat)) (l : List String) :
    tallyStates c l = l.foldl bumpState c := by
  cases l with
  | nil => rfl
  | cons s l => rw [tallyStates, if_pos (by simp)]

theorem lookupKey_tally_fold (f : Int → List String) :
    ∀ (ys : List Int) (c : List (String × Nat)) (m : String),
      lookupKey (ys.foldl (fun c y => tallyStates c (f y)) c) m
        = addCount (lookupKey c m) ((ys.flatMap f).count m)
  | [], c, m => by
    rcases hopt : lookupKey c m with _ | k <;> simp [addCount, hopt]
  | y :: ys, c, m => by
    rw [List.foldl_cons, tallyStates_eq_foldl,
      lookupKey_tally_fold f ys ((f y).foldl bumpState c) m, lookupKey_foldBump,
      List.flatMap_cons, List.count_append]
    exact addCount_addCount (lookupKey c m) ((f y).count m) ((ys.flatMap f).count m)

/--
C7: `trend_setter(D, Y)` is the concatenation, over the name keys of
`becomed_popular(D, Y)`, of the listings of `states_with_name(D, Y, name)` —
the Geographic Locator is always queried at the novelty year `Y` itself —
and it returns the empty list whenever `becomed_popular(D, Y)` is the empty
map.
-/
theorem trend_setter_spec (df : Dataset) (year : Int) :
    trend_setter df year
        = (becomed_popular df year).flatMap (fun p => statesListing df year p.1)
    ∧ (∀ name s, s ∈ statesListing df year name ↔ s ∈ states_with_name df year name)
    ∧ (becomed_popular df year = [] → trend_setter df year = []) := by
  have h1 : trend_setter df year
      = (becomed_popular df year).flatMap (fun p => statesListing df year p.1) := by
    simp only [trend_setter, foldl_append_eq_flatMap, List.nil_append]
  refine ⟨h1, ?_, ?_⟩
  · intro name s
    exact mem_statesListing
  · intro hempty
    rw [h1, hempty]
    rfl

/-- Witness for C7: the empty dataset has an empty emergence map, so
`trend_setter` returns the empty list. -/
theorem trend_setter_spec_witness : trend_setter ([] : Dataset) 2000 = [] :=
  (trend_setter_spec [] 2000).2.2 (by decide)

/--
C6: for `start ≤ end`, `trend_setter_period(D, start, end)` maps each region
to the sum, over the years of `[start, end]`, of its occurrence count in
`trend_setter(D, year)`; regions with total zero are absent (lookup `none`),
and the map is empty when every year yields an empty list.
-/
theorem trend_setter_period_spec (df : Dataset) (start stop : Int) (_h : start ≤ stop) :
    (∀ s, lookupKey (trend_setter_period df start stop) s
        = (if ((intRange start (stop + 1)).map (fun y => (trend_setter df y).count s)).sum = 0
           then none
           else some (((intRange start (stop + 1)).map
              (fun y => (trend_setter df y).count s)).sum)))
    ∧ ((∀ y, start ≤ y → y ≤ stop → trend_setter df y = []) →
        trend_setter_period df start stop = []) := by
  constructor
  · intro s
    rw [trend_setter_period, lookupKey_tally_fold (fun y => trend_setter df y)]
    rw [← count_flatMap_eq_sum]
    cases hcnt : ((intRange start (stop + 1)).flatMap (fun y => trend_setter df y)).count s with
    | zero => rfl
    | succ k => rfl
  · intro hempty
    refine eq_nil_of_lookupKey_none ?_
    intro m
    rw [trend_setter_period, lookupKey_tally_fold (fun y => trend_setter df y)]
    have hflat : (intRange start (stop + 1)).flatMap (fun y => trend_setter df y) = [] := by
      rw [List.flatMap_eq_nil_iff]
      intro y hy
      rcases mem_intRange.mp hy with ⟨h1, h2⟩
      exact hempty y h1 (by omega)
    rw [hflat]
    rfl

/-- Witness for C6 on `dfA` with the one-year period `[2000, 2000]`. -/
theorem trend_setter_period_spec_witness :
    lookupKey (trend_setter_period dfA 2000 2000) "CA"
      = (if ((intRange 2000 (2000 + 1)).map (fun y => (trend_setter dfA y).count "CA")).sum = 0
         then none
         else some (((intRange 2000 (2000 + 1)).map
            (fun y => (trend_setter dfA y).count "CA")).sum)) :=
  (trend_setter_period_spec dfA 2000 2000 (by decide)).1 "CA"

/--
C5: `late_adopters(D, Y)` is the concatenation, over the name keys of
`becomed_popular(D, Y)` with `first_popular_year = min(emergence_years) + 1`,
of the entries of the `late` multiset (regions reporting the name in each
year of `[first_popular_year, first_popular_year + 2]`, each year
contributing its set of reporting regions) whose region does not occur in
the `early` set (regions reporting the name in any year of
`[Y, first_popular_year)`); the exclusion is at region level.
-/
theorem late_adopters_spec (df : Dataset) (year : Int) :
    late_adopters df year
      = (becomed_popular df year).flatMap (fun p =>
          ((intRange (minYears p.2 + 1) (minYears p.2 + 1 + 3)).flatMap
              (fun q => statesListing df q p.1)).filter
            (fun s => decide (s ∉ (intRange year (minYears p.2 + 1)).flatMap
              (fun q => statesListing df q p.1))))
    ∧ (∀ name fpy s,
        s ∈ (intRange year fpy).flatMap (fun q => statesListing df q name)
          ↔ ∃ q, year ≤ q ∧ q < fpy ∧ s ∈ states_with_name df q name)
    ∧ (∀ name fpy s,
        s ∈ (intRange fpy (fpy + 3)).flatMap (fun q => statesListing df q name)
          ↔ ∃ q, fpy ≤ q ∧ q ≤ fpy + 2 ∧ s ∈ states_with_name df q name) := by
  refine ⟨?_, ?_, ?_⟩
  · simp only [late_adopters, foldl_append_eq_flatMap, List.nil_append]
  · intro name fpy s
    rw [List.mem_flatMap]
    constructor
    · rintro ⟨q, hq, hs⟩
      rcases mem_intRange.mp hq with ⟨h1, h2⟩
      exact ⟨q, h1, h2, mem_statesListing.mp hs⟩
    · rintro ⟨q, h1, h2, hs⟩
      exact ⟨q, mem_intRange.mpr ⟨h1, h2⟩, mem_statesListing.mpr hs⟩
  · intro name fpy s
    rw [List.mem_flatMap]
    constructor
    · rintro ⟨q, hq, hs⟩
      rcases mem_intRange.mp hq with ⟨h1, h2⟩
      exact ⟨q, h1, by omega, mem_statesListing.mp hs⟩
    · rintro ⟨q, h1, h2, hs⟩
      exact ⟨q, mem_intRange.mpr ⟨h1, by omega⟩, mem_statesListing.mpr hs⟩

/--
C9: every public operation leaves the input dataset unchanged: the store
component returned by each store-explicit call is the input record list
itself — same records, same fields, same order.
-/
theorem operations_preserve_dataset (df : Dataset) (year start stop : Int) (name : String) :
    (new_names_call df year).2 = df
    ∧ (states_with_name_call df year name).2 = df
    ∧ (popular_names_call df year).2 = df
    ∧ (becomed_popular_call df year).2 = df
    ∧ (trend_setter_call df year).2 = df
    ∧ (trend_setter_period_call df start stop).2 = df
    ∧ (late_adopters_call df year).2 = df
    ∧ (late_adopters_period_call df start stop).2 = df :=
  ⟨rfl, rfl, rfl, rfl, rfl, rfl, rfl, rfl⟩

/-- Witness for C10 on `dfA`. -/
theorem becomed_popular_min_bound_witness :
    ([2000] : List Int) ≠ []
    ∧ (2000 : Int) + 1 ≤ minYears [2000] + 1
    ∧ (2000 : Int) ∈ intRange 2000 (minYears [2000] + 1)
    ∧ intRange 2000 (minYears ([2000] : List Int) + 1) ≠ [] :=
  becomed_popular_min_bound dfA 2000 "Ana" [2000] (by decide)

end Util
